import Mathlib

/-
Verification of the gossamer multi-node extrinsic demo harness.

The development shallowly embeds the two Go entry points of the repository:
the flag-based orchestrator (function run, using urfave/cli flags) and the
positional-argument variant (function main in main.go).  Pure helpers
(decodeRPC, getStorage, hex handling) are modelled as Lean functions over a
JSON value type; the orchestration is modelled as a deterministic trace
semantics parameterised by an oracle that supplies the outcomes of all
external interactions (HTTP responses, the extrinsic encoder, the random
node choice, kill results).  Goroutines that merely interleave independent
per-node work are sequentialised in program order; their per-node behaviour
is unaffected by the interleaving.
-/

set_option autoImplicit false

/-- A JSON value.  Numbers are modelled as integers, which covers every
number the harness exchanges (error codes, ids). -/
inductive Json where
  | null
  | bool (b : Bool)
  | num (n : Int)
  | str (s : String)
  | arr (elems : List Json)
  | obj (fields : List (String × Json))

/-- Error mirrors the Go struct Error of the harness: message, numeric
code and optional structured data. -/
structure RpcError where
  message : String
  errorCode : Int
  data : Option (List (String × Json))

/-- ServerResponse mirrors the Go struct ServerResponse: jsonrpc version,
raw result (a RawMessage, none when the field is absent), optional error
object and raw id. -/
structure ServerResponse where
  version : String
  result : Option Json
  error : Option RpcError
  id : Option Json

/-- Lower-cases an ASCII letter; the JSON keys used by the harness are all
ASCII, so this is enough to model Go's case-insensitive field matching. -/
def lowerChar (c : Char) : Char :=
  if 'A' ≤ c ∧ c ≤ 'Z' then Char.ofNat (c.toNat + 32) else c

/-- Go's encoding/json matches an object key against a struct field tag
case-insensitively. -/
def keyMatches (k tag : String) : Bool :=
  k.data.map lowerChar == tag.data

/-- Decodes the value under the message key into the Error struct. -/
def decodeMessageField (v : Json) (acc : RpcError) : Except String RpcError :=
  match v with
  | Json.str s => Except.ok ⟨s, acc.errorCode, acc.data⟩
  | Json.null => Except.ok acc
  | _ => Except.error "json: cannot unmarshal value into field message"

/-- Decodes the value under the code key into the Error struct. -/
def decodeCodeField (v : Json) (acc : RpcError) : Except String RpcError :=
  match v with
  | Json.num n => Except.ok ⟨acc.message, n, acc.data⟩
  | Json.null => Except.ok acc
  | _ => Except.error "json: cannot unmarshal value into field code"

/-- Decodes the value under the data key into the Error struct. -/
def decodeDataField (v : Json) (acc : RpcError) : Except String RpcError :=
  match v with
  | Json.obj fs => Except.ok ⟨acc.message, acc.errorCode, some fs⟩
  | Json.null => Except.ok ⟨acc.message, acc.errorCode, none⟩
  | _ => Except.error "json: cannot unmarshal value into field data"

/-- Decodes one key of the JSON error object into the Error struct, with
unknown fields rejected (the decoder has DisallowUnknownFields set). -/
def decodeErrorField (k : String) (v : Json) (acc : RpcError) : Except String RpcError :=
  if keyMatches k "message" then decodeMessageField v acc
  else if keyMatches k "code" then decodeCodeField v acc
  else if keyMatches k "data" then decodeDataField v acc
  else Except.error ("json: unknown field " ++ k)

/-- Folds the fields of the error object through decodeErrorField. -/
def decodeErrorFields : List (String × Json) → RpcError → Except String RpcError
  | [], acc => Except.ok acc
  | (k, v) :: rest, acc =>
    match decodeErrorField k v acc with
    | Except.error e => Except.error e
    | Except.ok acc2 => decodeErrorFields rest acc2

/-- Decodes the value of the envelope's error key into the pointer-typed
Error field: null leaves the pointer nil, an object is decoded strictly,
anything else is a type error. -/
def decodeRpcError (j : Json) : Except String (Option RpcError) :=
  match j with
  | Json.null => Except.ok none
  | Json.obj fs =>
    match decodeErrorFields fs ⟨"", 0, none⟩ with
    | Except.error e => Except.error e
    | Except.ok r => Except.ok (some r)
  | _ => Except.error "json: cannot unmarshal value into Error"

/-- Decodes the value under the jsonrpc key into the version field. -/
def decodeVersionField (v : Json) (acc : ServerResponse) : Except String ServerResponse :=
  match v with
  | Json.str s => Except.ok ⟨s, acc.result, acc.error, acc.id⟩
  | Json.null => Except.ok acc
  | _ => Except.error "json: cannot unmarshal value into field jsonrpc"

/-- Decodes the value under the error key into the pointer-typed field. -/
def decodeErrField (v : Json) (acc : ServerResponse) : Except String ServerResponse :=
  match decodeRpcError v with
  | Except.error e => Except.error e
  | Except.ok oe => Except.ok ⟨acc.version, acc.result, oe, acc.id⟩

/-- Decodes the value under the id key into the pointer-typed raw field. -/
def decodeIdField (v : Json) (acc : ServerResponse) : Except String ServerResponse :=
  match v with
  | Json.null => Except.ok ⟨acc.version, acc.result, acc.error, none⟩
  | _ => Except.ok ⟨acc.version, acc.result, acc.error, some v⟩

/-- Dispatches one envelope key to its field decoder; an unmatched key is
rejected because the decoder has DisallowUnknownFields set. -/
def decodeEnvField (k : String) (v : Json) (acc : ServerResponse) : Except String ServerResponse :=
  if keyMatches k "jsonrpc" then decodeVersionField v acc
  else if keyMatches k "result" then Except.ok ⟨acc.version, some v, acc.error, acc.id⟩
  else if keyMatches k "error" then decodeErrField v acc
  else if keyMatches k "id" then decodeIdField v acc
  else Except.error ("json: unknown field " ++ k)

/-- Folds the fields of the envelope object through decodeEnvField. -/
def decodeEnvFields : List (String × Json) → ServerResponse → Except String ServerResponse
  | [], acc => Except.ok acc
  | (k, v) :: rest, acc =>
    match decodeEnvField k v acc with
    | Except.error e => Except.error e
    | Except.ok acc2 => decodeEnvFields rest acc2

/-- Decodes a response body into ServerResponse exactly as the first
decoder of decodeRPC does: a JSON object is decoded field by field with
DisallowUnknownFields, a top-level null leaves the zero value, and any
other value is a type error. -/
def decodeServerResponse (body : Json) : Except String ServerResponse :=
  match body with
  | Json.obj fs => decodeEnvFields fs ⟨"", none, none, none⟩
  | Json.null => Except.ok ⟨"", none, none, none⟩
  | _ => Except.error "json: cannot unmarshal value into ServerResponse"

/-- decodeRPC from the source: decode the envelope strictly; if the error
field is populated, surface its message; otherwise decode the raw result
with the caller-supplied target decoder dec (which models the second
strict json.Decoder aimed at the target shape). -/
def decodeRPC {α : Type} (body : Json) (dec : Option Json → Except String α) : Except String α :=
  match decodeServerResponse body with
  | Except.error e => Except.error e
  | Except.ok resp =>
    match resp.error with
    | some err => Except.error err.message
    | none => dec resp.result

/-- The target decoder used by getStorage, for a target of type pointer to
string: an absent result RawMessage makes the second decoder read empty
input (EOF), a null leaves the fresh string empty, a string decodes to
itself, and any other value is a type error (in particular any object,
whose every field is absent from the string shape). -/
def decodeStringTarget (raw : Option Json) : Except String String :=
  match raw with
  | none => Except.error "EOF"
  | some Json.null => Except.ok ""
  | some (Json.str s) => Except.ok s
  | some _ => Except.error "json: cannot unmarshal value into string"

/-- Value of a hex digit character. -/
def hexDigitVal (c : Char) : Option Nat :=
  if '0' ≤ c ∧ c ≤ '9' then some (c.toNat - '0'.toNat)
  else if 'a' ≤ c ∧ c ≤ 'f' then some (c.toNat - 'a'.toNat + 10)
  else if 'A' ≤ c ∧ c ≤ 'F' then some (c.toNat - 'A'.toNat + 10)
  else none

/-- Standard hex decoding of a character list into bytes, as Go's
hex.DecodeString: two digits per byte, odd length or an invalid digit is
an error. -/
def hexDecodeChars : List Char → Except String (List Nat)
  | [] => Except.ok []
  | [_] => Except.error "encoding hex: odd length hex string"
  | c1 :: c2 :: rest =>
    match hexDigitVal c1, hexDigitVal c2 with
    | some h, some l =>
      match hexDecodeChars rest with
      | Except.error e => Except.error e
      | Except.ok bs => Except.ok ((16 * h + l) :: bs)
    | _, _ => Except.error "encoding hex: invalid byte"

/-- Models the external gossamer helper common.HexToBytes used by
getStorage: a string shorter than two characters is invalid, a missing 0x
prefix is an error, and the remainder is hex decoded. -/
def HexToBytes (s : String) : Except String (List Nat) :=
  match s.data with
  | '0' :: 'x' :: rest => hexDecodeChars rest
  | _ =>
    if s.data.length < 2 then Except.error "invalid string"
    else Except.error "could not byteify non 0x prefixed string"

/-- getStorage from the source, modelled from the point the HTTP response
is available: the argument is the outcome of postRPC.  The first pair
component models the returned Go byte slice (none is a nil slice, some []
the zero-length slice), the second the returned error. -/
def getStorage (post : Except String Json) : Option (List Nat) × Option String :=
  match post with
  | Except.error e => (none, some e)
  | Except.ok body =>
    match decodeRPC body decodeStringTarget with
    | Except.error e => (none, some e)
    | Except.ok v =>
      if v = "" then (some [], none)
      else
        match HexToBytes v with
        | Except.error e => (none, some e)
        | Except.ok value => (some value, none)

/-- The envelope keys the ServerResponse shape accepts. -/
def envKnownKey (k : String) : Bool :=
  keyMatches k "jsonrpc" || keyMatches k "result" || keyMatches k "error" || keyMatches k "id"

/-- The keys the Error object shape accepts. -/
def errKnownKey (k : String) : Bool :=
  keyMatches k "message" || keyMatches k "code" || keyMatches k "data"

/-- The fixed ordered label list keys from the source. -/
def keys : List String :=
  ["alice", "bob", "charlie", "dave", "eve", "fred", "george", "heather", "ian"]

/-- The fixed network-address template baseaddr. -/
def baseaddr : String := "/ip4/127.0.0.1/tcp/"

/-- The base P2P port. -/
def baseport : Nat := 7000

/-- The base RPC port. -/
def baseRPCPort : Nat := 8540

/-- The shared retry ceiling maxRetries of the flag-based variant. -/
def maxRetries : Nat := 36

/-- Observable events of a harness execution: file creations, console
prints, node initialisation and start (with the bootnodes argument, none
when the variant passes no bootnodes flag), sleeps, the extrinsic
submission (RPC port and params string), the baseline and final storage
prints, and kill attempts on subprocesses. -/
inductive Event where
  | createFile (name : String)
  | printMsg (s : String)
  | nodeInit (i : Nat)
  | nodeStart (i : Nat) (bootnodes : Option String)
  | sleepSec (n : Nat)
  | submitCall (port : Nat) (params : String)
  | printBaseline (i : Nat) (res : Option (List Nat))
  | printFinal (i : Nat) (res : Option (List Nat))
  | killProc (i : Nat)

/-- How an execution ends: a plain return, os.Exit with a code (which in
Go skips deferred functions), or a runtime panic (which runs them). -/
inductive ExitKind where
  | normal
  | exited (code : Nat)
  | panicked (msg : String)

/-- Result of one storage retry loop: attempts performed and the final
values of the res and err variables. -/
structure LoopOut where
  calls : Nat
  res : Option (List Nat)
  err : Option String

/-- One getStorage retry loop from the source: at attempt j the response
resp j is processed by getStorage and the loop breaks when stop holds of
the resulting res and err; otherwise it sleeps a second and retries until
the fuel (the retry ceiling) is exhausted. -/
def storageRetryAux (stop : Option (List Nat) → Option String → Bool)
    (resp : Nat → Except String Json) :
    Nat → Nat → Option (List Nat) × Option String → LoopOut
  | 0, j, last => ⟨j, last.1, last.2⟩
  | fuel + 1, j, _ =>
    if stop (getStorage (resp j)).1 (getStorage (resp j)).2 then
      ⟨j + 1, (getStorage (resp j)).1, (getStorage (resp j)).2⟩
    else storageRetryAux stop resp fuel (j + 1) (getStorage (resp j))

/-- Break condition of the baseline read loop: err == nil, regardless of
the value read. -/
def baselineStop (_ : Option (List Nat)) (e : Option String) : Bool := e.isNone

/-- Break condition of the final polling loop: err == nil and the value
differs, as a Go byte slice comparison in which nil equals empty, from the
empty slice. -/
def finalStop (r : Option (List Nat)) (e : Option String) : Bool :=
  e.isNone && !(r.getD [] == [])

/-- The baseline read loop: at most 8 attempts. -/
def baselineLoop (resp : Nat → Except String Json) : LoopOut :=
  storageRetryAux baselineStop resp 8 0 (none, none)

/-- The final polling loop: at most maxRetries (36) attempts. -/
def finalLoop (resp : Nat → Except String Json) : LoopOut :=
  storageRetryAux finalStop resp maxRetries 0 (none, none)

/-- The peer-id discovery retry loop of the direct-connect branch,
carrying the last getPeerID outcome. -/
def peerRetryAux (resp : Nat → Except String String) :
    Nat → Nat → Except String String → Except String String
  | 0, _, last => last
  | fuel + 1, j, _ =>
    match resp j with
    | Except.ok pid => Except.ok pid
    | Except.error e => peerRetryAux resp fuel (j + 1) (Except.error e)

/-- The peer-id discovery loop: at most maxRetries (36) attempts. -/
def peerLoop (resp : Nat → Except String String) : Except String String :=
  peerRetryAux resp maxRetries 0 (Except.error "")

/-- Lowercase hex digit of a nibble, as Go's encoding hex package. -/
def hexChar (n : Nat) : Char := "0123456789abcdef".data.getD n '0'

/-- hex.EncodeToString from the source: two lowercase digits per byte. -/
def hexEncodeList (bs : List Nat) : String :=
  String.mk (bs.flatMap (fun b => [hexChar (b / 16), hexChar (b % 16)]))

/-- The params string of the author submitExtrinsic call: the encoded
extrinsic, hex encoded and wrapped as a quoted 0x string. -/
def submitParams (tx : List Nat) : String := "\"0x" ++ hexEncodeList tx ++ "\""

/-- The bootnode multiaddress built from the template, node 0's base P2P
port and the discovered peer id. -/
def bootAddr (pid : String) : String :=
  baseaddr ++ toString baseport ++ "/p2p/" ++ pid

/-- Oracle supplying the outcomes of every external interaction of the
flag-based run: the num and connect flag values, the getPeerID outcome per
attempt, the outcome of encoding the fixed extrinsic (key noot, value
washere), the HTTP response body (or transport error) per node and attempt
for the baseline and final getStorage calls, the value drawn by
rand.Intn(num) (used modulo num), the submission outcome, and the error,
if any, of each process kill. -/
structure Oracle where
  num : Nat
  connect : Bool
  peerResp : Nat → Except String String
  encodeExt : Except String (List Nat)
  baselineResp : Nat → Nat → Except String Json
  randVal : Nat
  submitResp : Except String (List Nat)
  finalResp : Nat → Nat → Except String Json
  killErr : Nat → Option String

/-- The log and error file creations for node i. -/
def startFiles (i : Nat) : List Event :=
  [Event.createFile ("./log_" ++ keys.getD i "" ++ ".out"),
   Event.createFile ("./err_" ++ keys.getD i "" ++ ".out")]

/-- The events of initAndStart for node i with a bootnodes argument. -/
def nodeBlock (addr : String) (i : Nat) : List Event :=
  startFiles i ++ [Event.nodeInit i, Event.nodeStart i (some addr)]

/-- The startup loop of run, iterated over the remaining node indices with
the current bootnode address and accumulated events.  Indexing keys out of
range panics while building the log file name; in direct-connect mode node
0 is started synchronously, the peer id is discovered by peerLoop (a
failure returns the error, exiting the process with code 1 before the kill
teardown is registered), and the bootnode address is recorded for the
remaining nodes.  The concurrently started remaining nodes are
sequentialised in loop order. -/
def startupLoop (o : Oracle) : List Nat → String → List Event → List Event × Option ExitKind × String
  | [], addr, acc => (acc, none, addr)
  | i :: rest, addr, acc =>
    if i < keys.length then
      if o.connect && i == 0 then
        match peerLoop o.peerResp with
        | Except.error _ =>
          (acc ++ startFiles 0 ++ [Event.nodeInit 0, Event.nodeStart 0 (some ""),
            Event.printMsg "failed to get peerID from first node"],
           some (ExitKind.exited 1), addr)
        | Except.ok pid =>
          startupLoop o rest (bootAddr pid)
            (acc ++ startFiles 0 ++ [Event.nodeInit 0, Event.nodeStart 0 (some ""),
              Event.printMsg ("got node addr for node " ++ bootAddr pid)])
      else
        startupLoop o rest addr (acc ++ nodeBlock addr i)
    else (acc, some (ExitKind.panicked "index out of range"), addr)

/-- The baseline phase events: for each node, run the 8-attempt read loop
and print the final res. -/
def baselinePhaseOf (resp : Nat → Nat → Except String Json) : Nat → List Event
  | 0 => []
  | n + 1 => baselinePhaseOf resp n ++ [Event.printBaseline n (baselineLoop (resp n)).res]

/-- The final polling phase events: for each node, run the 36-attempt
polling loop and print the final res.  The concurrent per-node loops are
sequentialised in index order. -/
def finalPhaseOf (resp : Nat → Nat → Except String Json) : Nat → List Event
  | 0 => []
  | n + 1 => finalPhaseOf resp n ++ [Event.printFinal n (finalLoop (resp n)).res]

/-- The console log of one kill attempt: a failure is printed, not
escalated. -/
def killLog (e : Option String) (i : Nat) : List Event :=
  match e with
  | some msg => [Event.printMsg ("could not kill process " ++ keys.getD i "" ++ "!!! " ++ msg)]
  | none => []

/-- The teardown events of the deferred kill loop: one kill per started
process, each failure only logged. -/
def killsOf (ke : Nat → Option String) : Nat → List Event
  | 0 => []
  | n + 1 => killsOf ke n ++ Event.killProc n :: killLog (ke n) n

/-- The tail of run after all nodes are up and the kill teardown has been
registered: the 5 second settle sleep, extrinsic encoding (failure exits
without running deferred kills), the baseline phase, the random choice of
the submission target (rand.Intn panics when num is 0; a panic runs the
deferred kills), the submission (failure exits without running deferred
kills), the final polling phase and the deferred kill teardown. -/
def afterStartup (o : Oracle) (evs0 : List Event) : List Event × ExitKind :=
  match o.encodeExt with
  | Except.error e => (evs0 ++ [Event.sleepSec 5, Event.printMsg e], ExitKind.exited 1)
  | Except.ok tx =>
    if o.num == 0 then
      (evs0 ++ [Event.sleepSec 5, Event.printMsg "storage before"]
        ++ baselinePhaseOf o.baselineResp o.num ++ killsOf o.killErr o.num,
       ExitKind.panicked "invalid argument to Intn")
    else
      match o.submitResp with
      | Except.error e =>
        (evs0 ++ [Event.sleepSec 5, Event.printMsg "storage before"]
          ++ baselinePhaseOf o.baselineResp o.num
          ++ [Event.submitCall (baseRPCPort + o.randVal % o.num) (submitParams tx),
              Event.printMsg e],
         ExitKind.exited 1)
      | Except.ok body =>
        (evs0 ++ [Event.sleepSec 5, Event.printMsg "storage before"]
          ++ baselinePhaseOf o.baselineResp o.num
          ++ [Event.submitCall (baseRPCPort + o.randVal % o.num) (submitParams tx),
              Event.printMsg ("submitted extrinsic to node " ++ toString (o.randVal % o.num)),
              Event.printMsg ("response: " ++ toString body)]
          ++ finalPhaseOf o.finalResp o.num ++ killsOf o.killErr o.num,
         ExitKind.normal)

/-- The flag-based run function as a trace semantics: a node count that is
not a multiple of three is rejected immediately with exit code 1; then the
nodes are brought up by startupLoop (whose early exits skip the not yet
registered kill teardown) and the verification sequence follows. -/
def run (o : Oracle) : List Event × ExitKind :=
  if o.num % 3 ≠ 0 then ([Event.printMsg "must do 3, 6, 9 nodes"], ExitKind.exited 1)
  else
    match startupLoop o (List.range o.num) ""
        [Event.printMsg ("num nodes: " ++ toString o.num)] with
    | (evs, some ex, _) => (evs, ex)
    | (evs, none, _) => afterStartup o evs

/-- Oracle for the positional-argument variant in main.go: the parse
outcome of the first argument when present, and the same external
interaction outcomes as for run (no peer discovery and no random choice:
this variant submits to node 0). -/
structure MainOracle where
  arg : Option (Except String Int)
  encodeExt : Except String (List Nat)
  baselineResp : Nat → Nat → Except String Json
  submitResp : Except String (List Nat)
  finalResp : Nat → Nat → Except String Json
  killErr : Nat → Option String

/-- The startup loop of main.go: no bootnodes flag is passed; indexing
keys out of range panics while building the log file name. -/
def mainStartupLoop : List Nat → List Event → List Event × Option ExitKind
  | [], acc => (acc, none)
  | i :: rest, acc =>
    if i < keys.length then
      mainStartupLoop rest (acc ++ startFiles i ++ [Event.nodeInit i, Event.nodeStart i none])
    else (acc, some (ExitKind.panicked "index out of range"))

/-- The body of main.go after the node count is settled: startup, settle
sleep, extrinsic encoding, baseline reads, one submission to node 0
(failure exits without running deferred kills), final polling and the
deferred kill teardown on the return path. -/
def mainGoBody (o : MainOracle) (num : Int) : List Event × ExitKind :=
  match mainStartupLoop (List.range num.toNat)
      [Event.printMsg ("num nodes: " ++ toString num)] with
  | (evs, some ex) => (evs, ex)
  | (evs, none) =>
    match o.encodeExt with
    | Except.error e => (evs ++ [Event.sleepSec 5, Event.printMsg e], ExitKind.exited 1)
    | Except.ok tx =>
      match o.submitResp with
      | Except.error e =>
        (evs ++ [Event.sleepSec 5, Event.printMsg "storage before"]
          ++ baselinePhaseOf o.baselineResp num.toNat
          ++ [Event.submitCall baseRPCPort (submitParams tx), Event.printMsg e],
         ExitKind.exited 1)
      | Except.ok body =>
        (evs ++ [Event.sleepSec 5, Event.printMsg "storage before"]
          ++ baselinePhaseOf o.baselineResp num.toNat
          ++ [Event.submitCall baseRPCPort (submitParams tx),
              Event.printMsg "submitted extrinsic",
              Event.printMsg ("response: " ++ toString body)]
          ++ finalPhaseOf o.finalResp num.toNat ++ killsOf o.killErr num.toNat,
         ExitKind.normal)

/-- The main function of main.go as a trace semantics: without an argument
the node count defaults to 3 unchecked; a present argument must parse and
be a multiple of three (in Go's truncated remainder) or the process exits
with code 1 before anything is created. -/
def mainGo (o : MainOracle) : List Event × ExitKind :=
  match o.arg with
  | none => mainGoBody o 3
  | some (Except.error e) => ([Event.printMsg e], ExitKind.exited 1)
  | some (Except.ok n) =>
    if Int.tmod n 3 ≠ 0 then ([Event.printMsg "must do 3, 6, 9 nodes"], ExitKind.exited 1)
    else mainGoBody o n

/-- True of the kill event for process i. -/
def isKill (i : Nat) : Event → Bool
  | Event.killProc j => j == i
  | _ => false

/-- True of any node start event. -/
def isStartEv : Event → Bool
  | Event.nodeStart _ _ => true
  | _ => false

/-- True of any file creation event. -/
def isCreateEv : Event → Bool
  | Event.createFile _ => true
  | _ => false

/-- True of any extrinsic submission event. -/
def isSubmitEv : Event → Bool
  | Event.submitCall _ _ => true
  | _ => false

/-- True of the final storage print of node i. -/
def isFinalPr (i : Nat) : Event → Bool
  | Event.printFinal j _ => j == i
  | _ => false

/-- True of any baseline storage print. -/
def isBasePrAny : Event → Bool
  | Event.printBaseline _ _ => true
  | _ => false

/-- True of the baseline storage print of node i. -/
def isBasePr (i : Nat) : Event → Bool
  | Event.printBaseline j _ => j == i
  | _ => false

/-- True of the given console message. -/
def isMsg (s : String) : Event → Bool
  | Event.printMsg t => t == s
  | _ => false

/-- True of the settle sleep event. -/
def isSleep5 : Event → Bool
  | Event.sleepSec n => n == 5
  | _ => false

/-- The node starts of a trace, in order, with their bootnodes argument. -/
def startsOf (evs : List Event) : List (Nat × Option String) :=
  evs.filterMap (fun e =>
    match e with
    | Event.nodeStart i b => some (i, b)
    | _ => none)

/-- Oracle requesting 4 nodes in the flag variant. -/
def c6Oracle : Oracle :=
  ⟨4, false, fun _ => Except.error "down", Except.ok [1], fun _ _ => Except.error "conn",
   0, Except.ok [1], fun _ _ => Except.error "conn", fun _ => none⟩

/-- Oracle passing argument 4 to the positional variant. -/
def c6MainOracle : MainOracle :=
  ⟨some (Except.ok 4), Except.ok [1], fun _ _ => Except.error "conn",
   Except.ok [1], fun _ _ => Except.error "conn", fun _ => none⟩

/-- Oracle with the num flag absent (count 0) and a successful encoder. -/
def c10Oracle : Oracle :=
  ⟨0, false, fun _ => Except.error "down", Except.ok [1, 2], fun _ _ => Except.error "conn",
   0, Except.ok [1], fun _ _ => Except.error "conn", fun _ => none⟩

/-- Oracle on which the extrinsic submission fails after three nodes were
started. -/
def c3Oracle : Oracle :=
  ⟨3, false, fun _ => Except.error "down", Except.ok [1, 2], fun _ _ => Except.error "conn",
   0, Except.error "boom", fun _ _ => Except.error "conn", fun _ => none⟩

/-- Oracle completing verification with a kill failure on node 1. -/
def c3wOracle : Oracle :=
  ⟨3, false, fun _ => Except.error "down", Except.ok [1, 2], fun _ _ => Except.error "conn",
   2, Except.ok [111], fun _ _ => Except.error "conn",
   fun i => if i == 1 then some "operation not permitted" else none⟩

/-- Oracle whose submission fails in the flag variant. -/
def c7Oracle : Oracle :=
  ⟨3, false, fun _ => Except.error "down", Except.ok [1, 2], fun _ _ => Except.error "conn",
   7, Except.error "boom", fun _ _ => Except.error "conn", fun _ => none⟩

/-- Oracle with no argument (count 3) whose submission fails in the
positional variant. -/
def c7MainOracle : MainOracle :=
  ⟨none, Except.ok [1, 2], fun _ _ => Except.error "conn",
   Except.error "refused", fun _ _ => Except.error "conn", fun _ => none⟩

/-- Final-poll responses of the witness node: a transport error on the
first attempt, then a populated value. -/
def c5Resp (j : Nat) : Except String Json :=
  if j == 0 then Except.error "conn" else Except.ok (Json.obj [("result", Json.str "0xff")])

/-- Oracle completing verification with the witness polling responses. -/
def c5Oracle : Oracle :=
  ⟨3, false, fun _ => Except.error "down", Except.ok [1, 2], fun _ _ => Except.error "conn",
   0, Except.ok [111], fun _ => c5Resp, fun _ => none⟩

/-- Baseline responses of the witness node: a transport error on the
first attempt, then a successful read whose value is empty. -/
def c8Resp (j : Nat) : Except String Json :=
  if j == 0 then Except.error "conn" else Except.ok (Json.obj [("result", Json.str "")])

/-- Oracle whose baseline reads fail once then succeed with an empty
value, and whose submission fails. -/
def c8Oracle : Oracle :=
  ⟨3, false, fun _ => Except.error "down", Except.ok [1, 2], fun _ => c8Resp,
   0, Except.error "boom", fun _ _ => Except.error "conn", fun _ => none⟩

/-- Oracle in direct-connect mode with three nodes and a discoverable
peer id. -/
def c4Oracle : Oracle :=
  ⟨3, true, fun _ => Except.ok "QmPeer", Except.ok [1], fun _ _ => Except.error "conn",
   0, Except.ok [79], fun _ _ => Except.error "conn", fun _ => none⟩

/-- Oracle requesting 12 nodes, a multiple of three beyond the label
list. -/
def c9Oracle : Oracle :=
  ⟨12, false, fun _ => Except.error "down", Except.ok [1], fun _ _ => Except.error "conn",
   0, Except.ok [1], fun _ _ => Except.error "conn", fun _ => none⟩

lemma decodeEnvField_unknown {k : String} (v : Json) (acc : ServerResponse)
    (h : envKnownKey k = false) :
    decodeEnvField k v acc = Except.error ("json: unknown field " ++ k) := by
  simp only [envKnownKey, Bool.or_eq_false_iff] at h
  obtain ⟨⟨⟨h1, h2⟩, h3⟩, h4⟩ := h
  simp [decodeEnvField, h1, h2, h3, h4]

lemma decodeEnvFields_unknown :
    ∀ (fs : List (String × Json)) (acc : ServerResponse),
      fs.any (fun kv => !envKnownKey kv.1) = true →
      ∃ e, decodeEnvFields fs acc = Except.error e := by
  intro fs
  induction fs with
  | nil => intro acc h; simp at h
  | cons kv rest ih =>
    intro acc h
    obtain ⟨k, v⟩ := kv
    simp only [List.any_cons] at h
    by_cases hk : envKnownKey k = true
    · have hrest : rest.any (fun kv => !envKnownKey kv.1) = true := by
        simp only [hk, Bool.not_true, Bool.false_or] at h
        exact h
      cases hEF : decodeEnvField k v acc with
      | error e => exact ⟨e, by simp [decodeEnvFields, hEF]⟩
      | ok acc2 =>
        obtain ⟨e, he⟩ := ih acc2 hrest
        exact ⟨e, by simp [decodeEnvFields, hEF, he]⟩
    · rw [Bool.not_eq_true] at hk
      refine ⟨"json: unknown field " ++ k, ?_⟩
      simp [decodeEnvFields, decodeEnvField_unknown v acc hk]

lemma decodeErrorField_unknown {k : String} (v : Json) (acc : RpcError)
    (h : errKnownKey k = false) :
    decodeErrorField k v acc = Except.error ("json: unknown field " ++ k) := by
  simp only [errKnownKey, Bool.or_eq_false_iff] at h
  obtain ⟨⟨h1, h2⟩, h3⟩ := h
  simp [decodeErrorField, h1, h2, h3]

lemma decodeErrorFields_unknown :
    ∀ (fs : List (String × Json)) (acc : RpcError),
      fs.any (fun kv => !errKnownKey kv.1) = true →
      ∃ e, decodeErrorFields fs acc = Except.error e := by
  intro fs
  induction fs with
  | nil => intro acc h; simp at h
  | cons kv rest ih =>
    intro acc h
    obtain ⟨k, v⟩ := kv
    simp only [List.any_cons] at h
    by_cases hk : errKnownKey k = true
    · have hrest : rest.any (fun kv => !errKnownKey kv.1) = true := by
        simp only [hk, Bool.not_true, Bool.false_or] at h
        exact h
      cases hEF : decodeErrorField k v acc with
      | error e => exact ⟨e, by simp [decodeErrorFields, hEF]⟩
      | ok acc2 =>
        obtain ⟨e, he⟩ := ih acc2 hrest
        exact ⟨e, by simp [decodeErrorFields, hEF, he]⟩
    · rw [Bool.not_eq_true] at hk
      refine ⟨"json: unknown field " ++ k, ?_⟩
      simp [decodeErrorFields, decodeErrorField_unknown v acc hk]

/-- Claim C1: decodeRPC rejects any response payload containing fields
absent from the expected envelope shape (at the top level, and inside the
error object), and for the string-shaped result used by getStorage it
rejects a result carrying any object fields; whenever the envelope's
error field is populated it returns exactly the error object's message,
for every target decoder dec, hence without attempting to decode the
result payload. -/
theorem decodeRPC_strict_spec (α : Type) (dec : Option Json → Except String α)
    (fields efields rfields : List (String × Json)) (body : Json)
    (resp : ServerResponse) (err : RpcError) :
    (fields.any (fun kv => !envKnownKey kv.1) = true →
      ∃ e, decodeRPC (Json.obj fields) dec = Except.error e)
    ∧ (efields.any (fun kv => !errKnownKey kv.1) = true →
      ∃ e, decodeRPC (Json.obj [("error", Json.obj efields)]) dec = Except.error e)
    ∧ (decodeServerResponse body = Except.ok resp → resp.error = some err →
      decodeRPC body dec = Except.error err.message)
    ∧ (decodeServerResponse body = Except.ok resp → resp.error = none →
      resp.result = some (Json.obj rfields) →
      ∃ e, decodeRPC body decodeStringTarget = Except.error e) := by
  refine ⟨?_, ?_, ?_, ?_⟩
  · intro h
    obtain ⟨e, he⟩ := decodeEnvFields_unknown fields ⟨"", none, none, none⟩ h
    exact ⟨e, by simp [decodeRPC, decodeServerResponse, he]⟩
  · intro h
    obtain ⟨e, he⟩ := decodeErrorFields_unknown efields ⟨"", 0, none⟩ h
    have k1 : keyMatches "error" "jsonrpc" = false := rfl
    have k2 : keyMatches "error" "result" = false := rfl
    have k3 : keyMatches "error" "error" = true := rfl
    have hre : decodeRpcError (Json.obj efields) = Except.error e := by
      simp [decodeRpcError, he]
    refine ⟨e, ?_⟩
    simp [decodeRPC, decodeServerResponse, decodeEnvFields, decodeEnvField, decodeErrField,
      k1, k2, k3, hre]
  · intro h1 h2
    simp [decodeRPC, h1, h2]
  · intro h1 h2 h3
    refine ⟨"json: cannot unmarshal value into string", ?_⟩
    simp [decodeRPC, h1, h2, h3, decodeStringTarget]

/-- Witness for decodeRPC_strict_spec at concrete payloads; the error case
uses a target decoder that would succeed, showing the result payload is
never consulted. -/
theorem decodeRPC_strict_spec_witness :
    (∃ e, decodeRPC (Json.obj [("jsonrpc", Json.str "2.0"), ("bogus", Json.null)])
        (fun _ => Except.ok "ignored") = Except.error e)
    ∧ (∃ e, decodeRPC (Json.obj [("error", Json.obj [("message", Json.str "m"), ("extra", Json.num 1)])])
        (fun _ => Except.ok "ignored") = Except.error e)
    ∧ decodeRPC (Json.obj [("error", Json.obj [("message", Json.str "boom"), ("code", Json.num (-32600))])])
        (fun _ => Except.ok "ignored") = Except.error "boom"
    ∧ (∃ e, decodeRPC (Json.obj [("result", Json.obj [("value", Json.str "0x00")])])
        decodeStringTarget = Except.error e) := by
  obtain ⟨c1, c2, c3, _⟩ := decodeRPC_strict_spec String (fun _ => Except.ok "ignored")
    [("jsonrpc", Json.str "2.0"), ("bogus", Json.null)]
    [("message", Json.str "m"), ("extra", Json.num 1)] []
    (Json.obj [("error", Json.obj [("message", Json.str "boom"), ("code", Json.num (-32600))])])
    ⟨"", none, some ⟨"boom", -32600, none⟩, none⟩ ⟨"boom", -32600, none⟩
  have c4 := (decodeRPC_strict_spec String (fun _ => Except.ok "ignored") [] []
    [("value", Json.str "0x00")]
    (Json.obj [("result", Json.obj [("value", Json.str "0x00")])])
    ⟨"", some (Json.obj [("value", Json.str "0x00")]), none, none⟩ ⟨"", 0, none⟩).2.2.2
  exact ⟨c1 rfl, c2 rfl, c3 rfl rfl, c4 rfl rfl rfl⟩

/-- Claim C2: once the RPC layer has decoded the result string, getStorage
maps the empty string to the zero-length non-nil byte slice with a nil
error, and any other string to exactly the bytes its hex decoding yields,
or to the hex decoder's error when the string is not valid prefixed hex. -/
theorem getStorage_hex_spec (body : Json) (v : String) (bs : List Nat) (e : String)
    (hdec : decodeRPC body decodeStringTarget = Except.ok v) :
    (v = "" → getStorage (Except.ok body) = (some [], none))
    ∧ (v ≠ "" → HexToBytes v = Except.ok bs → getStorage (Except.ok body) = (some bs, none))
    ∧ (v ≠ "" → HexToBytes v = Except.error e → getStorage (Except.ok body) = (none, some e)) := by
  refine ⟨?_, ?_, ?_⟩
  · intro h1
    simp [getStorage, hdec, h1]
  · intro h1 h2
    simp [getStorage, hdec, h1, h2]
  · intro h1 h2
    simp [getStorage, hdec, h1, h2]

/-- Witness for getStorage_hex_spec: empty result, a valid hex result and
an invalid hex result. -/
theorem getStorage_hex_spec_witness :
    getStorage (Except.ok (Json.obj [("result", Json.str "")])) = (some [], none)
    ∧ getStorage (Except.ok (Json.obj [("result", Json.str "0x01ff")])) = (some [1, 255], none)
    ∧ getStorage (Except.ok (Json.obj [("result", Json.str "0xzz")]))
        = (none, some "encoding hex: invalid byte") := by
  refine ⟨(getStorage_hex_spec (Json.obj [("result", Json.str "")]) "" [] "" rfl).1 rfl, ?_, ?_⟩
  · exact (getStorage_hex_spec (Json.obj [("result", Json.str "0x01ff")]) "0x01ff" [1, 255] ""
      rfl).2.1 (by decide) rfl
  · exact (getStorage_hex_spec (Json.obj [("result", Json.str "0xzz")]) "0xzz" []
      "encoding hex: invalid byte" rfl).2.2 (by decide) rfl

lemma storageRetryAux_calls_le (stop : Option (List Nat) → Option String → Bool)
    (resp : Nat → Except String Json) :
    ∀ (fuel j : Nat) (last : Option (List Nat) × Option String),
      (storageRetryAux stop resp fuel j last).calls ≤ j + fuel := by
  intro fuel
  induction fuel with
  | zero => intro j last; simp [storageRetryAux]
  | succ f ih =>
    intro j last
    simp only [storageRetryAux]
    split
    · simp
    · exact le_trans (ih (j + 1) (getStorage (resp j))) (by omega)

lemma storageRetryAux_stops (stop : Option (List Nat) → Option String → Bool)
    (resp : Nat → Except String Json) :
    ∀ (k fuel j : Nat) (last : Option (List Nat) × Option String),
      k < fuel →
      stop (getStorage (resp (j + k))).1 (getStorage (resp (j + k))).2 = true →
      (∀ m, m < k → stop (getStorage (resp (j + m))).1 (getStorage (resp (j + m))).2 = false) →
      storageRetryAux stop resp fuel j last =
        ⟨j + k + 1, (getStorage (resp (j + k))).1, (getStorage (resp (j + k))).2⟩ := by
  intro k
  induction k with
  | zero =>
    intro fuel j last hk hs _
    obtain ⟨f, rfl⟩ : ∃ f, fuel = f + 1 := ⟨fuel - 1, by omega⟩
    rw [Nat.add_zero] at hs
    simp only [storageRetryAux, hs, if_true]
    simp
  | succ k ih =>
    intro fuel j last hk hs hprev
    obtain ⟨f, rfl⟩ : ∃ f, fuel = f + 1 := ⟨fuel - 1, by omega⟩
    have h0 : stop (getStorage (resp j)).1 (getStorage (resp j)).2 = false := by
      have := hprev 0 (by omega)
      rwa [Nat.add_zero] at this
    have hs2 : stop (getStorage (resp (j + 1 + k))).1 (getStorage (resp (j + 1 + k))).2 = true := by
      rw [show j + 1 + k = j + (k + 1) from by omega]
      exact hs
    have hprev2 : ∀ m, m < k →
        stop (getStorage (resp (j + 1 + m))).1 (getStorage (resp (j + 1 + m))).2 = false := by
      intro m hm
      rw [show j + 1 + m = j + (m + 1) from by omega]
      exact hprev (m + 1) (by omega)
    simp only [storageRetryAux, h0, Bool.false_eq_true, if_false]
    rw [ih f (j + 1) (getStorage (resp j)) (by omega) hs2 hprev2]
    rw [show j + 1 + k = j + (k + 1) from by omega]

lemma storageRetryAux_exhausts (stop : Option (List Nat) → Option String → Bool)
    (resp : Nat → Except String Json) :
    ∀ (fuel j : Nat) (last : Option (List Nat) × Option String),
      0 < fuel →
      (∀ m, m < fuel → stop (getStorage (resp (j + m))).1 (getStorage (resp (j + m))).2 = false) →
      storageRetryAux stop resp fuel j last =
        ⟨j + fuel, (getStorage (resp (j + fuel - 1))).1, (getStorage (resp (j + fuel - 1))).2⟩ := by
  intro fuel
  induction fuel with
  | zero => intro j last h; omega
  | succ f ih =>
    intro j last _ hall
    have h0 : stop (getStorage (resp j)).1 (getStorage (resp j)).2 = false := by
      have := hall 0 (by omega)
      rwa [Nat.add_zero] at this
    simp only [storageRetryAux, h0, Bool.false_eq_true, if_false]
    rcases Nat.eq_zero_or_pos f with hf | hf
    · subst hf
      simp only [storageRetryAux]
      simp
    · have hall2 : ∀ m, m < f →
          stop (getStorage (resp (j + 1 + m))).1 (getStorage (resp (j + 1 + m))).2 = false := by
        intro m hm
        rw [show j + 1 + m = j + (m + 1) from by omega]
        exact hall (m + 1) (by omega)
      rw [ih (j + 1) (getStorage (resp j)) hf hall2]
      rw [show j + 1 + f = j + (f + 1) from by omega]

lemma startupLoop_prefix (o : Oracle) :
    ∀ (l1 l2 : List Nat) (addr : String) (acc : List Event),
      (∀ i ∈ l1, (o.connect && i == 0) = false) →
      (∀ i ∈ l1, i < keys.length) →
      startupLoop o (l1 ++ l2) addr acc =
        startupLoop o l2 addr (acc ++ l1.flatMap (nodeBlock addr)) := by
  intro l1
  induction l1 with
  | nil => intro l2 addr acc _ _; simp
  | cons i rest ih =>
    intro l2 addr acc h1 h2
    have hi := h1 i (by simp)
    have hl := h2 i (by simp)
    rw [List.cons_append]
    simp only [startupLoop]
    rw [if_pos hl, if_neg (by simp [hi])]
    rw [ih l2 addr _ (fun x hx => h1 x (by simp [hx])) (fun x hx => h2 x (by simp [hx]))]
    simp [List.flatMap_cons, List.append_assoc]

lemma startupLoop_plain (o : Oracle) (l : List Nat) (addr : String) (acc : List Event)
    (h1 : ∀ i ∈ l, (o.connect && i == 0) = false)
    (h2 : ∀ i ∈ l, i < keys.length) :
    startupLoop o l addr acc = (acc ++ l.flatMap (nodeBlock addr), none, addr) := by
  have h := startupLoop_prefix o l [] addr acc h1 h2
  rw [List.append_nil] at h
  rw [h]
  simp [startupLoop]

lemma run_noconnect (o : Oracle) (h3 : o.num % 3 = 0) (h9 : o.num ≤ 9) (hc : o.connect = false) :
    run o = afterStartup o
      (Event.printMsg ("num nodes: " ++ toString o.num)
        :: (List.range o.num).flatMap (nodeBlock "")) := by
  simp only [run]
  rw [if_neg (by omega)]
  rw [startupLoop_plain o _ "" _ (fun i _ => by simp [hc]) (fun i hi => by
    rw [show keys.length = 9 from rfl]
    have := List.mem_range.mp hi
    omega)]
  simp

lemma baselinePhase_filter_nil (resp : Nat → Nat → Except String Json) (p : Event → Bool)
    (hp : ∀ i r, p (Event.printBaseline i r) = false) :
    ∀ n, (baselinePhaseOf resp n).filter p = [] := by
  intro n
  induction n with
  | zero => simp [baselinePhaseOf]
  | succ m ih => simp [baselinePhaseOf, List.filter_append, ih, hp]

lemma finalPhase_filter_nil (resp : Nat → Nat → Except String Json) (p : Event → Bool)
    (hp : ∀ i r, p (Event.printFinal i r) = false) :
    ∀ n, (finalPhaseOf resp n).filter p = [] := by
  intro n
  induction n with
  | zero => simp [finalPhaseOf]
  | succ m ih => simp [finalPhaseOf, List.filter_append, ih, hp]

lemma killLog_filter_nil (e : Option String) (m : Nat) (p : Event → Bool)
    (hp : ∀ s, p (Event.printMsg s) = false) :
    (killLog e m).filter p = [] := by
  cases e <;> simp [killLog, hp]

lemma killsOf_filter_nil (ke : Nat → Option String) (p : Event → Bool)
    (hp1 : ∀ i, p (Event.killProc i) = false)
    (hp2 : ∀ s, p (Event.printMsg s) = false) :
    ∀ n, (killsOf ke n).filter p = [] := by
  intro n
  induction n with
  | zero => simp [killsOf]
  | succ m ih =>
    simp [killsOf, List.filter_append, ih, List.filter_cons, hp1,
      killLog_filter_nil (ke m) m p hp2]

lemma filter_flatMap_nil {α β : Type} (l : List α) (f : α → List β) (p : β → Bool)
    (h : ∀ a ∈ l, (f a).filter p = []) : (l.flatMap f).filter p = [] := by
  induction l with
  | nil => simp
  | cons x xs ih =>
    simp only [List.flatMap_cons, List.filter_append]
    rw [h x (by simp), ih (fun a ha => h a (by simp [ha]))]
    simp

lemma killsOf_filter_ge (ke : Nat → Option String) (i : Nat) :
    ∀ n, n ≤ i → (killsOf ke n).filter (isKill i) = [] := by
  intro n
  induction n with
  | zero => intro _; simp [killsOf]
  | succ m ih =>
    intro h
    have hm : (m == i) = false := by simp; omega
    simp [killsOf, List.filter_append, ih (by omega), List.filter_cons, isKill, hm,
      killLog_filter_nil (ke m) m (isKill i) (fun s => by simp [isKill])]

lemma killsOf_filter_lt (ke : Nat → Option String) (i : Nat) :
    ∀ n, i < n → (killsOf ke n).filter (isKill i) = [Event.killProc i] := by
  intro n
  induction n with
  | zero => intro h; omega
  | succ m ih =>
    intro h
    by_cases him : i = m
    · subst him
      simp [killsOf, List.filter_append, killsOf_filter_ge ke i i (le_refl i),
        List.filter_cons, isKill,
        killLog_filter_nil (ke i) i (isKill i) (fun s => by simp [isKill])]
    · have hlt : i < m := by omega
      have hm : (m == i) = false := by simp; omega
      simp [killsOf, List.filter_append, ih hlt, List.filter_cons, isKill, hm,
        killLog_filter_nil (ke m) m (isKill i) (fun s => by simp [isKill])]

lemma killsOf_mem_log (ke : Nat → Option String) (i : Nat) (msg : String)
    (hk : ke i = some msg) :
    ∀ n, i < n →
      Event.printMsg ("could not kill process " ++ keys.getD i "" ++ "!!! " ++ msg)
        ∈ killsOf ke n := by
  intro n
  induction n with
  | zero => intro h; omega
  | succ m ih =>
    intro h
    by_cases him : i = m
    · subst him
      simp [killsOf, killLog, hk]
    · have hlt : i < m := by omega
      simp only [killsOf]
      exact List.mem_append_left _ (ih hlt)

lemma finalPhase_filter_ge (resp : Nat → Nat → Except String Json) (i : Nat) :
    ∀ n, n ≤ i → (finalPhaseOf resp n).filter (isFinalPr i) = [] := by
  intro n
  induction n with
  | zero => intro _; simp [finalPhaseOf]
  | succ m ih =>
    intro h
    have hm : (m == i) = false := by simp; omega
    simp [finalPhaseOf, List.filter_append, ih (by omega), isFinalPr, hm]

lemma finalPhase_filter_lt (resp : Nat → Nat → Except String Json) (i : Nat) :
    ∀ n, i < n →
      (finalPhaseOf resp n).filter (isFinalPr i) =
        [Event.printFinal i (finalLoop (resp i)).res] := by
  intro n
  induction n with
  | zero => intro h; omega
  | succ m ih =>
    intro h
    by_cases him : i = m
    · subst him
      simp [finalPhaseOf, List.filter_append, finalPhase_filter_ge resp i i (le_refl i),
        isFinalPr]
    · have hlt : i < m := by omega
      have hm : (m == i) = false := by simp; omega
      simp [finalPhaseOf, List.filter_append, ih hlt, isFinalPr, hm]

lemma baselinePhase_filter_ge (resp : Nat → Nat → Except String Json) (i : Nat) :
    ∀ n, n ≤ i → (baselinePhaseOf resp n).filter (isBasePr i) = [] := by
  intro n
  induction n with
  | zero => intro _; simp [baselinePhaseOf]
  | succ m ih =>
    intro h
    have hm : (m == i) = false := by simp; omega
    simp [baselinePhaseOf, List.filter_append, ih (by omega), isBasePr, hm]

lemma baselinePhase_filter_lt (resp : Nat → Nat → Except String Json) (i : Nat) :
    ∀ n, i < n →
      (baselinePhaseOf resp n).filter (isBasePr i) =
        [Event.printBaseline i (baselineLoop (resp i)).res] := by
  intro n
  induction n with
  | zero => intro h; omega
  | succ m ih =>
    intro h
    by_cases him : i = m
    · subst him
      simp [baselinePhaseOf, List.filter_append, baselinePhase_filter_ge resp i i (le_refl i),
        isBasePr]
    · have hlt : i < m := by omega
      have hm : (m == i) = false := by simp; omega
      simp [baselinePhaseOf, List.filter_append, ih hlt, isBasePr, hm]

lemma afterStartup_ok (o : Oracle) (tx body : List Nat) (evs0 : List Event)
    (he : o.encodeExt = Except.ok tx) (hs : o.submitResp = Except.ok body) (h0 : 0 < o.num) :
    afterStartup o evs0 =
      (evs0 ++ [Event.sleepSec 5, Event.printMsg "storage before"]
        ++ baselinePhaseOf o.baselineResp o.num
        ++ [Event.submitCall (baseRPCPort + o.randVal % o.num) (submitParams tx),
            Event.printMsg ("submitted extrinsic to node " ++ toString (o.randVal % o.num)),
            Event.printMsg ("response: " ++ toString body)]
        ++ finalPhaseOf o.finalResp o.num ++ killsOf o.killErr o.num,
       ExitKind.normal) := by
  have h00 : (o.num == 0) = false := by simp; omega
  simp [afterStartup, he, hs, h00]

lemma afterStartup_submitErr (o : Oracle) (tx : List Nat) (e : String) (evs0 : List Event)
    (he : o.encodeExt = Except.ok tx) (hs : o.submitResp = Except.error e) (h0 : 0 < o.num) :
    afterStartup o evs0 =
      (evs0 ++ [Event.sleepSec 5, Event.printMsg "storage before"]
        ++ baselinePhaseOf o.baselineResp o.num
        ++ [Event.submitCall (baseRPCPort + o.randVal % o.num) (submitParams tx),
            Event.printMsg e],
       ExitKind.exited 1) := by
  have h00 : (o.num == 0) = false := by simp; omega
  simp [afterStartup, he, hs, h00]

/-- Claim C6: a node count that is not a multiple of three makes both
variants print the diagnostic and exit with code 1 at once: the whole
trace is that single print, so no subprocess is spawned and no log or
error file is created (in particular a count of 4 terminates immediately
with no side effects). -/
theorem invalid_count_rejected (o : Oracle) (om : MainOracle) (n : Int)
    (h : o.num % 3 ≠ 0) (hm : om.arg = some (Except.ok n)) (hn : Int.tmod n 3 ≠ 0) :
    run o = ([Event.printMsg "must do 3, 6, 9 nodes"], ExitKind.exited 1)
    ∧ mainGo om = ([Event.printMsg "must do 3, 6, 9 nodes"], ExitKind.exited 1) := by
  constructor
  · simp only [run]
    rw [if_pos h]
  · simp only [mainGo, hm]
    rw [if_pos hn]

/-- Witness for invalid_count_rejected at node count 4. -/
theorem invalid_count_rejected_witness :
    (4 : Nat) % 3 ≠ 0
    ∧ run c6Oracle = ([Event.printMsg "must do 3, 6, 9 nodes"], ExitKind.exited 1)
    ∧ mainGo c6MainOracle = ([Event.printMsg "must do 3, 6, 9 nodes"], ExitKind.exited 1) := by
  have h := invalid_count_rejected c6Oracle c6MainOracle 4 (by decide) rfl (by decide)
  exact ⟨by decide, h.1, h.2⟩

/-- Claim C10: in the flag variant a node count of 0 (the default when the
num flag is absent) passes the multiple-of-three validation, the run
proceeds with zero nodes (it prints the count, sleeps and reaches the
verification sequence having started no node), and then panics at
rand.Intn(0) in the submission step instead of exiting with a
diagnostic. -/
theorem zero_count_panics (o : Oracle) (tx : List Nat)
    (h0 : o.num = 0) (he : o.encodeExt = Except.ok tx) :
    (run o).1 = [Event.printMsg "num nodes: 0", Event.sleepSec 5,
      Event.printMsg "storage before"]
    ∧ (run o).2 = ExitKind.panicked "invalid argument to Intn"
    ∧ startsOf (run o).1 = [] := by
  obtain ⟨num, conn, pr, ee, br, rv, sr, fr, ke⟩ := o
  replace h0 : num = 0 := h0
  replace he : ee = Except.ok tx := he
  subst h0
  subst he
  refine ⟨?_, rfl, rfl⟩
  simp only [run]
  norm_num
  simp [startupLoop, afterStartup, baselinePhaseOf, killsOf, List.range_zero]
  rfl

/-- Witness for zero_count_panics. -/
theorem zero_count_panics_witness :
    (run c10Oracle).1 = [Event.printMsg "num nodes: 0", Event.sleepSec 5,
      Event.printMsg "storage before"]
    ∧ (run c10Oracle).2 = ExitKind.panicked "invalid argument to Intn"
    ∧ startsOf (run c10Oracle).1 = [] :=
  zero_count_panics c10Oracle [1, 2] rfl rfl

/-- Counterexample to claim C3 as stated: on this run the extrinsic
submission fails, a fatal error, after three subprocesses were started;
the process exits with code 1 through os.Exit, which does not run
deferred functions in Go, so none of the started subprocesses receives
any kill signal. -/
theorem teardown_kill_cex :
    (run c3Oracle).2 = ExitKind.exited 1
    ∧ ((run c3Oracle).1.filter isStartEv).length = 3
    ∧ ((run c3Oracle).1.filter (isKill 0)).length = 0
    ∧ ((run c3Oracle).1.filter (isKill 1)).length = 0
    ∧ ((run c3Oracle).1.filter (isKill 2)).length = 0 :=
  ⟨rfl, rfl, rfl, rfl, rfl⟩

/-- Amended claim C3: when run returns normally (verification completed,
so the registered teardown defer runs) every started subprocess receives
exactly one kill attempt and a kill failure is only logged, never
escalated; but fatal errors taken through os.Exit (extrinsic encoding or
submission failure) skip the deferred kills, and a peer-discovery failure
returns before the teardown defer is registered, so on those paths no
subprocess is killed. -/
theorem teardown_kill_amended (o : Oracle) (tx body : List Nat) (i : Nat)
    (h3 : o.num % 3 = 0) (h9 : o.num ≤ 9) (hc : o.connect = false)
    (he : o.encodeExt = Except.ok tx) (hs : o.submitResp = Except.ok body)
    (hi : i < o.num) :
    (run o).2 = ExitKind.normal
    ∧ ((run o).1.filter (isKill i)).length = 1
    ∧ (∀ msg, o.killErr i = some msg →
        Event.printMsg ("could not kill process " ++ keys.getD i "" ++ "!!! " ++ msg)
          ∈ (run o).1) := by
  have h0 : 0 < o.num := by omega
  rw [run_noconnect o h3 h9 hc, afterStartup_ok o tx body _ he hs h0]
  refine ⟨rfl, ?_, ?_⟩
  · simp only [List.filter_append, List.cons_append, List.filter_cons]
    rw [baselinePhase_filter_nil o.baselineResp (isKill i) (fun a r => rfl) o.num,
      finalPhase_filter_nil o.finalResp (isKill i) (fun a r => rfl) o.num,
      killsOf_filter_lt o.killErr i o.num hi,
      filter_flatMap_nil (List.range o.num) (nodeBlock "") (isKill i)
        (fun a _ => by simp [nodeBlock, startFiles, isKill])]
    simp [isKill]
  · intro msg hmsg
    exact List.mem_append_right _ (killsOf_mem_log o.killErr i msg hmsg o.num hi)

/-- Witness for teardown_kill_amended on the normal completion path. -/
theorem teardown_kill_amended_witness :
    (run c3wOracle).2 = ExitKind.normal
    ∧ ((run c3wOracle).1.filter (isKill 1)).length = 1
    ∧ Event.printMsg "could not kill process bob!!! operation not permitted"
        ∈ (run c3wOracle).1 := by
  have h := teardown_kill_amended c3wOracle [1, 2] [111] 1 rfl (by decide) rfl rfl rfl
    (by decide)
  exact ⟨h.1, h.2.1, h.2.2 "operation not permitted" rfl⟩

lemma mainStartupLoop_all :
    ∀ (l : List Nat) (acc : List Event),
      (∀ i ∈ l, i < keys.length) →
      mainStartupLoop l acc =
        (acc ++ l.flatMap (fun i => startFiles i ++ [Event.nodeInit i, Event.nodeStart i none]),
         none) := by
  intro l
  induction l with
  | nil => intro acc _; simp [mainStartupLoop]
  | cons i rest ih =>
    intro acc h
    have hl := h i (by simp)
    simp only [mainStartupLoop]
    rw [if_pos hl, ih _ (fun x hx => h x (by simp [hx]))]
    simp [List.flatMap_cons, List.append_assoc]

/-- Claim C7: exactly one extrinsic, the fixed noot/washere write hex
encoded into the params string, is submitted: in the randomized flag
variant to RPC port baseRPCPort + r where r is the rand.Intn draw reduced
modulo num (so r < num), and in the positional variant to node 0 (port
baseRPCPort); in both variants a submission failure exits the harness
with code 1. -/
theorem single_submission_spec (o : Oracle) (om : MainOracle) (tx txm : List Nat)
    (h3 : o.num % 3 = 0) (h9 : o.num ≤ 9) (h0 : 0 < o.num) (hc : o.connect = false)
    (he : o.encodeExt = Except.ok tx)
    (hm : om.arg = none) (hem : om.encodeExt = Except.ok txm) :
    o.randVal % o.num < o.num
    ∧ (run o).1.filter isSubmitEv =
        [Event.submitCall (baseRPCPort + o.randVal % o.num) (submitParams tx)]
    ∧ (∀ e, o.submitResp = Except.error e → (run o).2 = ExitKind.exited 1)
    ∧ (mainGo om).1.filter isSubmitEv = [Event.submitCall baseRPCPort (submitParams txm)]
    ∧ (∀ e, om.submitResp = Except.error e → (mainGo om).2 = ExitKind.exited 1) := by
  have hst := mainStartupLoop_all (List.range (Int.toNat 3))
    [Event.printMsg ("num nodes: " ++ toString (3 : Int))]
    (fun i hi => by
      rw [show keys.length = 9 from rfl]
      have := List.mem_range.mp hi
      omega)
  refine ⟨Nat.mod_lt _ h0, ?_, ?_, ?_, ?_⟩
  · cases hsr : o.submitResp with
    | error e =>
      rw [run_noconnect o h3 h9 hc, afterStartup_submitErr o tx e _ he hsr h0]
      simp only [List.filter_append, List.cons_append, List.filter_cons]
      rw [baselinePhase_filter_nil o.baselineResp isSubmitEv (fun a r => rfl) o.num,
        filter_flatMap_nil (List.range o.num) (nodeBlock "") isSubmitEv
          (fun a _ => by simp [nodeBlock, startFiles, isSubmitEv])]
      simp [isSubmitEv]
    | ok body =>
      rw [run_noconnect o h3 h9 hc, afterStartup_ok o tx body _ he hsr h0]
      simp only [List.filter_append, List.cons_append, List.filter_cons]
      rw [baselinePhase_filter_nil o.baselineResp isSubmitEv (fun a r => rfl) o.num,
        finalPhase_filter_nil o.finalResp isSubmitEv (fun a r => rfl) o.num,
        killsOf_filter_nil o.killErr isSubmitEv (fun a => rfl) (fun s => rfl) o.num,
        filter_flatMap_nil (List.range o.num) (nodeBlock "") isSubmitEv
          (fun a _ => by simp [nodeBlock, startFiles, isSubmitEv])]
      simp [isSubmitEv]
  · intro e hsr
    rw [run_noconnect o h3 h9 hc, afterStartup_submitErr o tx e _ he hsr h0]
  · cases hsr : om.submitResp with
    | error e =>
      simp only [mainGo, hm, mainGoBody, hst, hem, hsr]
      simp only [List.filter_append, List.cons_append, List.filter_cons]
      rw [baselinePhase_filter_nil om.baselineResp isSubmitEv (fun a r => rfl) (Int.toNat 3),
        filter_flatMap_nil (List.range (Int.toNat 3))
          (fun i => startFiles i ++ [Event.nodeInit i, Event.nodeStart i none]) isSubmitEv
          (fun a _ => by simp [startFiles, isSubmitEv])]
      simp [isSubmitEv]
    | ok body =>
      simp only [mainGo, hm, mainGoBody, hst, hem, hsr]
      simp only [List.filter_append, List.cons_append, List.filter_cons]
      rw [baselinePhase_filter_nil om.baselineResp isSubmitEv (fun a r => rfl) (Int.toNat 3),
        finalPhase_filter_nil om.finalResp isSubmitEv (fun a r => rfl) (Int.toNat 3),
        killsOf_filter_nil om.killErr isSubmitEv (fun a => rfl) (fun s => rfl) (Int.toNat 3),
        filter_flatMap_nil (List.range (Int.toNat 3))
          (fun i => startFiles i ++ [Event.nodeInit i, Event.nodeStart i none]) isSubmitEv
          (fun a _ => by simp [startFiles, isSubmitEv])]
      simp [isSubmitEv]
  · intro e hsr
    simp only [mainGo, hm, mainGoBody, hst, hem, hsr]

/-- Witness for single_submission_spec. -/
theorem single_submission_spec_witness :
    (7 : Nat) % 3 < 3
    ∧ (run c7Oracle).1.filter isSubmitEv =
        [Event.submitCall (8540 + 7 % 3) (submitParams [1, 2])]
    ∧ (run c7Oracle).2 = ExitKind.exited 1
    ∧ (mainGo c7MainOracle).1.filter isSubmitEv = [Event.submitCall 8540 (submitParams [1, 2])]
    ∧ (mainGo c7MainOracle).2 = ExitKind.exited 1 := by
  have h := single_submission_spec c7Oracle c7MainOracle [1, 2] [1, 2] rfl (by decide)
    (by decide) rfl rfl rfl rfl
  exact ⟨h.1, h.2.1, h.2.2.1 "boom" rfl, h.2.2.2.1, h.2.2.2.2 "refused" rfl⟩

/-- Claim C5: the final polling loop makes at most 36 getStorage attempts;
it breaks early exactly at the first attempt whose read has a nil error
and a non-empty value (the finalStop condition), keeping that value;
when no attempt satisfies the condition it performs all 36 attempts and
keeps the last read outcome; and on the verification path each node's
final value is printed exactly once, equal to the loop's final res,
whether the loop ended by success or by exhausting the ceiling. -/
theorem final_poll_spec (o : Oracle) (tx body : List Nat) (i : Nat)
    (h3 : o.num % 3 = 0) (h9 : o.num ≤ 9) (hc : o.connect = false)
    (he : o.encodeExt = Except.ok tx) (hs : o.submitResp = Except.ok body)
    (h0 : 0 < o.num) (hi : i < o.num) :
    (∀ resp, (finalLoop resp).calls ≤ 36)
    ∧ (∀ resp k, k < 36 →
        finalStop (getStorage (resp k)).1 (getStorage (resp k)).2 = true →
        (∀ m, m < k → finalStop (getStorage (resp m)).1 (getStorage (resp m)).2 = false) →
        finalLoop resp = ⟨k + 1, (getStorage (resp k)).1, (getStorage (resp k)).2⟩)
    ∧ (∀ resp, (∀ m, m < 36 →
          finalStop (getStorage (resp m)).1 (getStorage (resp m)).2 = false) →
        finalLoop resp = ⟨36, (getStorage (resp 35)).1, (getStorage (resp 35)).2⟩)
    ∧ (run o).1.filter (isFinalPr i) =
        [Event.printFinal i (finalLoop (o.finalResp i)).res] := by
  refine ⟨?_, ?_, ?_, ?_⟩
  · intro resp
    have h := storageRetryAux_calls_le finalStop resp 36 0 (none, none)
    simpa [finalLoop, maxRetries] using h
  · intro resp k hk hstop hprev
    have hs0 : finalStop (getStorage (resp (0 + k))).1 (getStorage (resp (0 + k))).2 = true := by
      rw [Nat.zero_add]
      exact hstop
    have hp0 : ∀ m, m < k →
        finalStop (getStorage (resp (0 + m))).1 (getStorage (resp (0 + m))).2 = false := by
      intro m hm
      rw [Nat.zero_add]
      exact hprev m hm
    have h := storageRetryAux_stops finalStop resp k 36 0 (none, none) hk hs0 hp0
    simpa [finalLoop, maxRetries] using h
  · intro resp hall
    have hp0 : ∀ m, m < 36 →
        finalStop (getStorage (resp (0 + m))).1 (getStorage (resp (0 + m))).2 = false := by
      intro m hm
      rw [Nat.zero_add]
      exact hall m hm
    have h := storageRetryAux_exhausts finalStop resp 36 0 (none, none) (by omega) hp0
    simpa [finalLoop, maxRetries] using h
  · rw [run_noconnect o h3 h9 hc, afterStartup_ok o tx body _ he hs h0]
    simp only [List.filter_append, List.cons_append, List.filter_cons]
    rw [baselinePhase_filter_nil o.baselineResp (isFinalPr i) (fun a r => rfl) o.num,
      finalPhase_filter_lt o.finalResp i o.num hi,
      killsOf_filter_nil o.killErr (isFinalPr i) (fun a => rfl) (fun s => rfl) o.num,
      filter_flatMap_nil (List.range o.num) (nodeBlock "") (isFinalPr i)
        (fun a _ => by simp [nodeBlock, startFiles, isFinalPr])]
    simp [isFinalPr]

/-- Witness for final_poll_spec: the loop stops at the second attempt,
whose read succeeded with the non-empty value, and the final print of
node 0 appears exactly once. -/
theorem final_poll_spec_witness :
    (finalLoop c5Resp).calls ≤ 36
    ∧ finalLoop c5Resp = ⟨2, (getStorage (c5Resp 1)).1, (getStorage (c5Resp 1)).2⟩
    ∧ (run c5Oracle).1.filter (isFinalPr 0) =
        [Event.printFinal 0 (finalLoop (c5Oracle.finalResp 0)).res] := by
  have h := final_poll_spec c5Oracle [1, 2] [111] 0 rfl (by decide) rfl rfl rfl
    (by decide) (by decide)
  refine ⟨h.1 c5Resp, ?_, h.2.2.2⟩
  exact h.2.1 c5Resp 1 (by decide) rfl (fun m hm => by
    have hm0 : m = 0 := by omega
    subst hm0
    rfl)

lemma takeWhile_append_all {α : Type} (p : α → Bool) (l1 l2 : List α)
    (h : ∀ a ∈ l1, p a = true) :
    (l1 ++ l2).takeWhile p = l1 ++ l2.takeWhile p := by
  induction l1 with
  | nil => simp
  | cons x xs ih =>
    rw [List.cons_append, List.takeWhile_cons_of_pos (h x (by simp)),
      ih (fun a ha => h a (by simp [ha])), List.cons_append]

lemma nodeBlock_no_sleep (addr : String) (l : List Nat) :
    ∀ a ∈ l.flatMap (nodeBlock addr), (!isSleep5 a) = true := by
  intro a ha
  rw [List.mem_flatMap] at ha
  obtain ⟨i, _, hai⟩ := ha
  simp only [nodeBlock, startFiles, List.cons_append, List.mem_cons, List.mem_singleton,
    List.nil_append, List.not_mem_nil, or_false] at hai
  rcases hai with h | h | h | h <;> subst h <;> rfl

/-- Claim C8: the baseline phase happens after the 5 second settle sleep
that follows bring-up (no baseline print precedes the sleep event); each
node's read loop makes at most 8 attempts and stops at the first attempt
whose error is nil regardless of the value read, or keeps the last
outcome after 8 failures; persistent read errors are never escalated (the
run still reaches the submission call for every baseline oracle); and the
last obtained value of every node is printed exactly once regardless of
success. -/
theorem baseline_read_spec (o : Oracle) (tx : List Nat) (i : Nat)
    (h3 : o.num % 3 = 0) (h9 : o.num ≤ 9) (hc : o.connect = false)
    (he : o.encodeExt = Except.ok tx) (h0 : 0 < o.num) (hi : i < o.num) :
    (∀ resp, (baselineLoop resp).calls ≤ 8)
    ∧ (∀ resp k, k < 8 →
        (getStorage (resp k)).2 = none →
        (∀ m, m < k → (getStorage (resp m)).2 ≠ none) →
        baselineLoop resp = ⟨k + 1, (getStorage (resp k)).1, none⟩)
    ∧ (∀ resp, (∀ m, m < 8 → (getStorage (resp m)).2 ≠ none) →
        baselineLoop resp = ⟨8, (getStorage (resp 7)).1, (getStorage (resp 7)).2⟩)
    ∧ (run o).1.filter (isBasePr i) =
        [Event.printBaseline i (baselineLoop (o.baselineResp i)).res]
    ∧ ((run o).1.filter isSubmitEv).length = 1
    ∧ ((run o).1.takeWhile (fun e => !isSleep5 e)).filter isBasePrAny = []
    ∧ (run o).1.any isSleep5 = true := by
  have hstopOf : ∀ (resp : Nat → Except String Json) (m : Nat),
      (getStorage (resp m)).2 ≠ none →
      baselineStop (getStorage (resp m)).1 (getStorage (resp m)).2 = false := by
    intro resp m hm
    rcases h2 : (getStorage (resp m)).2 with _ | v
    · exact absurd h2 hm
    · simp [baselineStop, h2]
  refine ⟨?_, ?_, ?_, ?_, ?_, ?_, ?_⟩
  · intro resp
    have h := storageRetryAux_calls_le baselineStop resp 8 0 (none, none)
    simpa [baselineLoop] using h
  · intro resp k hk hnil hprev
    have hs0 : baselineStop (getStorage (resp (0 + k))).1 (getStorage (resp (0 + k))).2
        = true := by
      rw [Nat.zero_add]
      simp [baselineStop, hnil]
    have hp0 : ∀ m, m < k →
        baselineStop (getStorage (resp (0 + m))).1 (getStorage (resp (0 + m))).2 = false := by
      intro m hm
      rw [Nat.zero_add]
      exact hstopOf resp m (hprev m hm)
    have h := storageRetryAux_stops baselineStop resp k 8 0 (none, none) hk hs0 hp0
    rw [show (⟨k + 1, (getStorage (resp k)).1, none⟩ : LoopOut)
      = ⟨k + 1, (getStorage (resp k)).1, (getStorage (resp k)).2⟩ from by rw [hnil]]
    simpa [baselineLoop] using h
  · intro resp hall
    have hp0 : ∀ m, m < 8 →
        baselineStop (getStorage (resp (0 + m))).1 (getStorage (resp (0 + m))).2 = false := by
      intro m hm
      rw [Nat.zero_add]
      exact hstopOf resp m (hall m hm)
    have h := storageRetryAux_exhausts baselineStop resp 8 0 (none, none) (by omega) hp0
    simpa [baselineLoop] using h
  · cases hsr : o.submitResp with
    | error e =>
      rw [run_noconnect o h3 h9 hc, afterStartup_submitErr o tx e _ he hsr h0]
      simp only [List.filter_append, List.cons_append, List.filter_cons]
      rw [baselinePhase_filter_lt o.baselineResp i o.num hi,
        filter_flatMap_nil (List.range o.num) (nodeBlock "") (isBasePr i)
          (fun a _ => by simp [nodeBlock, startFiles, isBasePr])]
      simp [isBasePr]
    | ok body =>
      rw [run_noconnect o h3 h9 hc, afterStartup_ok o tx body _ he hsr h0]
      simp only [List.filter_append, List.cons_append, List.filter_cons]
      rw [baselinePhase_filter_lt o.baselineResp i o.num hi,
        finalPhase_filter_nil o.finalResp (isBasePr i) (fun a r => rfl) o.num,
        killsOf_filter_nil o.killErr (isBasePr i) (fun a => rfl) (fun s => rfl) o.num,
        filter_flatMap_nil (List.range o.num) (nodeBlock "") (isBasePr i)
          (fun a _ => by simp [nodeBlock, startFiles, isBasePr])]
      simp [isBasePr]
  · cases hsr : o.submitResp with
    | error e =>
      rw [run_noconnect o h3 h9 hc, afterStartup_submitErr o tx e _ he hsr h0]
      simp only [List.filter_append, List.cons_append, List.filter_cons]
      rw [baselinePhase_filter_nil o.baselineResp isSubmitEv (fun a r => rfl) o.num,
        filter_flatMap_nil (List.range o.num) (nodeBlock "") isSubmitEv
          (fun a _ => by simp [nodeBlock, startFiles, isSubmitEv])]
      simp [isSubmitEv]
    | ok body =>
      rw [run_noconnect o h3 h9 hc, afterStartup_ok o tx body _ he hsr h0]
      simp only [List.filter_append, List.cons_append, List.filter_cons]
      rw [baselinePhase_filter_nil o.baselineResp isSubmitEv (fun a r => rfl) o.num,
        finalPhase_filter_nil o.finalResp isSubmitEv (fun a r => rfl) o.num,
        killsOf_filter_nil o.killErr isSubmitEv (fun a => rfl) (fun s => rfl) o.num,
        filter_flatMap_nil (List.range o.num) (nodeBlock "") isSubmitEv
          (fun a _ => by simp [nodeBlock, startFiles, isSubmitEv])]
      simp [isSubmitEv]
  · cases hsr : o.submitResp with
    | error e =>
      rw [run_noconnect o h3 h9 hc, afterStartup_submitErr o tx e _ he hsr h0]
      simp only [List.cons_append, List.append_assoc]
      rw [List.takeWhile_cons_of_pos (by rfl),
        takeWhile_append_all _ _ _ (nodeBlock_no_sleep "" (List.range o.num)),
        List.takeWhile_cons_of_neg (by simp [isSleep5])]
      simp only [List.append_nil, List.filter_cons]
      rw [filter_flatMap_nil (List.range o.num) (nodeBlock "") isBasePrAny
        (fun a _ => by simp [nodeBlock, startFiles, isBasePrAny])]
      simp [isBasePrAny]
    | ok body =>
      rw [run_noconnect o h3 h9 hc, afterStartup_ok o tx body _ he hsr h0]
      simp only [List.cons_append, List.append_assoc]
      rw [List.takeWhile_cons_of_pos (by rfl),
        takeWhile_append_all _ _ _ (nodeBlock_no_sleep "" (List.range o.num)),
        List.takeWhile_cons_of_neg (by simp [isSleep5])]
      simp only [List.append_nil, List.filter_cons]
      rw [filter_flatMap_nil (List.range o.num) (nodeBlock "") isBasePrAny
        (fun a _ => by simp [nodeBlock, startFiles, isBasePrAny])]
      simp [isBasePrAny]
  · cases hsr : o.submitResp with
    | error e =>
      rw [run_noconnect o h3 h9 hc, afterStartup_submitErr o tx e _ he hsr h0]
      simp [List.any_append, isSleep5]
    | ok body =>
      rw [run_noconnect o h3 h9 hc, afterStartup_ok o tx body _ he hsr h0]
      simp [List.any_append, isSleep5]

/-- Witness for baseline_read_spec: the loop stops at the second attempt
even though the value read is empty, and the baseline print of node 0
appears exactly once, after the settle sleep. -/
theorem baseline_read_spec_witness :
    (baselineLoop c8Resp).calls ≤ 8
    ∧ baselineLoop c8Resp = ⟨2, (getStorage (c8Resp 1)).1, none⟩
    ∧ (run c8Oracle).1.filter (isBasePr 0) =
        [Event.printBaseline 0 (baselineLoop (c8Oracle.baselineResp 0)).res]
    ∧ ((run c8Oracle).1.filter isSubmitEv).length = 1
    ∧ ((run c8Oracle).1.takeWhile (fun e => !isSleep5 e)).filter isBasePrAny = []
    ∧ (run c8Oracle).1.any isSleep5 = true := by
  have h := baseline_read_spec c8Oracle [1, 2] 0 rfl (by decide) rfl rfl (by decide)
    (by decide)
  refine ⟨h.1 c8Resp, ?_, h.2.2.2.1, h.2.2.2.2.1, h.2.2.2.2.2.1, h.2.2.2.2.2.2⟩
  exact h.2.1 c8Resp 1 (by decide) rfl (fun m hm => by
    have hm0 : m = 0 := by omega
    subst hm0
    decide)

lemma startsOf_append (l1 l2 : List Event) :
    startsOf (l1 ++ l2) = startsOf l1 ++ startsOf l2 := by
  simp [startsOf]

lemma startsOf_baseline (resp : Nat → Nat → Except String Json) :
    ∀ n, startsOf (baselinePhaseOf resp n) = [] := by
  intro n
  induction n with
  | zero => rfl
  | succ m ih =>
    rw [baselinePhaseOf, startsOf_append, ih]
    rfl

lemma startsOf_final (resp : Nat → Nat → Except String Json) :
    ∀ n, startsOf (finalPhaseOf resp n) = [] := by
  intro n
  induction n with
  | zero => rfl
  | succ m ih =>
    rw [finalPhaseOf, startsOf_append, ih]
    rfl

lemma startsOf_kills (ke : Nat → Option String) : ∀ n, startsOf (killsOf ke n) = [] := by
  intro n
  induction n with
  | zero => rfl
  | succ m ih =>
    rw [killsOf, startsOf_append, ih, List.nil_append]
    cases ke m <;> rfl

lemma startsOf_afterStartup (o : Oracle) (evs : List Event) :
    startsOf (afterStartup o evs).1 = startsOf evs := by
  cases he : o.encodeExt with
  | error e =>
    simp only [afterStartup, he]
    rw [startsOf_append, show startsOf [Event.sleepSec 5, Event.printMsg e] = [] from rfl,
      List.append_nil]
  | ok tx =>
    by_cases h0 : (o.num == 0) = true
    · simp only [afterStartup, he, h0, if_true]
      rw [startsOf_append, startsOf_kills, List.append_nil, startsOf_append,
        startsOf_baseline, List.append_nil, startsOf_append,
        show startsOf [Event.sleepSec 5, Event.printMsg "storage before"] = [] from rfl,
        List.append_nil]
    · have h0f : (o.num == 0) = false := by simpa using h0
      cases hs : o.submitResp with
      | error e =>
        simp only [afterStartup, he, h0f, Bool.false_eq_true, if_false, hs]
        rw [startsOf_append, startsOf_append, startsOf_append, startsOf_baseline,
          List.append_nil,
          show startsOf [Event.sleepSec 5, Event.printMsg "storage before"] = [] from rfl,
          List.append_nil, show startsOf [Event.submitCall (baseRPCPort + o.randVal % o.num)
            (submitParams tx), Event.printMsg e] = [] from rfl, List.append_nil]
      | ok body =>
        simp only [afterStartup, he, h0f, Bool.false_eq_true, if_false, hs]
        rw [startsOf_append, startsOf_kills, List.append_nil, startsOf_append,
          startsOf_final, List.append_nil, startsOf_append, startsOf_append,
          startsOf_baseline, List.append_nil, startsOf_append,
          show startsOf [Event.sleepSec 5, Event.printMsg "storage before"] = [] from rfl,
          List.append_nil,
          show startsOf [Event.submitCall (baseRPCPort + o.randVal % o.num) (submitParams tx),
            Event.printMsg ("submitted extrinsic to node " ++ toString (o.randVal % o.num)),
            Event.printMsg ("response: " ++ toString body)] = [] from rfl, List.append_nil]

lemma startsOf_flatMap_nodeBlock (addr : String) :
    ∀ l : List Nat, startsOf (l.flatMap (nodeBlock addr)) = l.map (fun i => (i, some addr)) := by
  intro l
  induction l with
  | nil => rfl
  | cons x xs ih =>
    rw [List.flatMap_cons, startsOf_append, ih]
    rfl

/-- Claim C4: in direct-connect mode node 0 is started first with an empty
bootnodes argument, and every other node is started with the same
bootnode address string, built from the fixed network-address template,
node 0's base P2P port and the discovered peer id, which therefore
contains the peer id as a substring (here a suffix). -/
theorem bootnode_addr_spec (o : Oracle) (pid : String)
    (h3 : o.num % 3 = 0) (h0 : 0 < o.num) (h9 : o.num ≤ 9)
    (hc : o.connect = true) (hp : peerLoop o.peerResp = Except.ok pid) :
    startsOf (run o).1 =
      (0, some "") :: (List.range (o.num - 1)).map (fun k => (k + 1, some (bootAddr pid)))
    ∧ bootAddr pid = baseaddr ++ toString baseport ++ "/p2p/" ++ pid
    ∧ ∃ s, bootAddr pid = s ++ pid := by
  refine ⟨?_, rfl, ⟨baseaddr ++ toString baseport ++ "/p2p/", rfl⟩⟩
  have hrange : List.range o.num = 0 :: (List.range (o.num - 1)).map Nat.succ := by
    obtain ⟨m, hm⟩ : ∃ m, o.num = m + 1 := ⟨o.num - 1, by omega⟩
    rw [hm]
    simp [List.range_succ_eq_map]
  simp only [run]
  rw [if_neg (by omega), hrange]
  simp only [startupLoop]
  rw [if_pos (by decide), if_pos (by simp [hc]), hp]
  simp only []
  rw [startupLoop_plain o _ (bootAddr pid) _
    (by
      intro i hi
      rw [List.mem_map] at hi
      obtain ⟨k, _, rfl⟩ := hi
      simp)
    (by
      intro i hi
      rw [List.mem_map] at hi
      obtain ⟨k, hk, rfl⟩ := hi
      rw [List.mem_range] at hk
      rw [show keys.length = 9 from rfl]
      omega)]
  simp only []
  rw [startsOf_afterStartup]
  rw [startsOf_append, startsOf_flatMap_nodeBlock, List.map_map]
  rw [show startsOf ([Event.printMsg ("num nodes: " ++ toString o.num)] ++ startFiles 0 ++
      [Event.nodeInit 0, Event.nodeStart 0 (some ""),
        Event.printMsg ("got node addr for node " ++ bootAddr pid)])
    = [(0, some "")] from rfl]
  simp [Function.comp, Nat.succ_eq_add_one]

/-- Witness for bootnode_addr_spec: node 0 starts without a bootnode
address, nodes 1 and 2 receive the same address ending in the peer id. -/
theorem bootnode_addr_spec_witness :
    startsOf (run c4Oracle).1 =
      [(0, some ""), (1, some (bootAddr "QmPeer")), (2, some (bootAddr "QmPeer"))]
    ∧ bootAddr "QmPeer" = "/ip4/127.0.0.1/tcp/" ++ toString (7000 : Nat) ++ "/p2p/" ++ "QmPeer"
    ∧ (∃ s, bootAddr "QmPeer" = s ++ "QmPeer") := by
  have h := bootnode_addr_spec c4Oracle "QmPeer" rfl (by decide) (by decide) rfl rfl
  exact ⟨h.1, h.2.1, h.2.2⟩

lemma startupLoop_connect_head (o : Oracle) (rest : List Nat) (addr : String)
    (acc : List Event) (pid : String)
    (hcc : o.connect = true) (hp : peerLoop o.peerResp = Except.ok pid) :
    startupLoop o (0 :: rest) addr acc =
      startupLoop o rest (bootAddr pid)
        (acc ++ startFiles 0 ++ [Event.nodeInit 0, Event.nodeStart 0 (some ""),
          Event.printMsg ("got node addr for node " ++ bootAddr pid)]) := by
  simp only [startupLoop]
  rw [if_pos (by decide), if_pos (by simp [hcc]), hp]

lemma startupLoop_oob (o : Oracle) (i : Nat) (rest : List Nat) (addr : String)
    (acc : List Event) (hi : keys.length ≤ i) :
    startupLoop o (i :: rest) addr acc =
      (acc, some (ExitKind.panicked "index out of range"), addr) := by
  simp only [startupLoop]
  rw [if_neg (by omega)]

/-- Claim C9: every node count that is a multiple of three but greater
than 9 (the length of the keys label list) passes the multiple-of-three
validation and brings up nine nodes, after which the harness panics with
an index out of range while building the log file name of node 9, instead
of rejecting the count with a diagnostic.  In direct-connect mode this is
shown under a successful peer discovery. -/
theorem oversize_count_panics (o : Oracle)
    (h3 : o.num % 3 = 0) (h9 : 9 < o.num)
    (hpc : o.connect = true → ∃ pid, peerLoop o.peerResp = Except.ok pid) :
    (run o).2 = ExitKind.panicked "index out of range"
    ∧ (startsOf (run o).1).length = 9
    ∧ ((run o).1.filter isSubmitEv).length = 0 := by
  obtain ⟨m, hm⟩ : ∃ m, o.num = 10 + m := ⟨o.num - 10, by omega⟩
  by_cases hcc : o.connect = true
  · obtain ⟨pid, hp⟩ := hpc hcc
    simp only [run]
    rw [if_neg (by omega), hm, show (10 + m) = (9 + m) + 1 from by omega,
      List.range_succ_eq_map, List.range_add, List.range_succ, List.map_append,
      List.map_append, show List.map Nat.succ [8] = [9] from rfl, List.append_assoc,
      List.singleton_append,
      startupLoop_connect_head o _ "" _ pid hcc hp,
      startupLoop_prefix o (List.map Nat.succ (List.range 8)) _ (bootAddr pid) _
        (by
          intro i hi
          rw [List.mem_map] at hi
          obtain ⟨k, _, rfl⟩ := hi
          simp)
        (by
          intro i hi
          rw [List.mem_map] at hi
          obtain ⟨k, hk, rfl⟩ := hi
          rw [List.mem_range] at hk
          rw [show keys.length = 9 from rfl]
          omega),
      startupLoop_oob o 9 _ (bootAddr pid) _ (by decide)]
    simp only []
    refine ⟨by trivial, ?_, ?_⟩
    · rw [startsOf_append, startsOf_flatMap_nodeBlock,
        show startsOf ([Event.printMsg ("num nodes: " ++ toString ((9 + m) + 1))]
          ++ startFiles 0 ++ [Event.nodeInit 0, Event.nodeStart 0 (some ""),
            Event.printMsg ("got node addr for node " ++ bootAddr pid)])
          = [(0, some "")] from rfl]
      simp
    · simp only [List.filter_append, List.cons_append, List.filter_cons]
      rw [filter_flatMap_nil (List.map Nat.succ (List.range 8)) (nodeBlock (bootAddr pid))
        isSubmitEv (fun a _ => by simp [nodeBlock, startFiles, isSubmitEv])]
      simp [isSubmitEv, startFiles]
  · have hcf : o.connect = false := by
      revert hcc
      cases o.connect <;> simp
    simp only [run]
    rw [if_neg (by omega), hm, List.range_add, List.range_succ, List.append_assoc,
      List.singleton_append,
      startupLoop_prefix o (List.range 9) _ "" _
        (fun i _ => by simp [hcf])
        (fun i hi => by
          rw [show keys.length = 9 from rfl]
          exact List.mem_range.mp hi),
      startupLoop_oob o 9 _ "" _ (by decide)]
    simp only []
    refine ⟨by trivial, ?_, ?_⟩
    · rw [startsOf_append, startsOf_flatMap_nodeBlock,
        show startsOf [Event.printMsg ("num nodes: " ++ toString (10 + m))] = [] from rfl]
      simp
    · simp only [List.filter_append, List.filter_cons]
      rw [filter_flatMap_nil (List.range 9) (nodeBlock "") isSubmitEv
        (fun a _ => by simp [nodeBlock, startFiles, isSubmitEv])]
      simp [isSubmitEv]

/-- Witness for oversize_count_panics at count 12. -/
theorem oversize_count_panics_witness :
    (12 : Nat) % 3 = 0
    ∧ (run c9Oracle).2 = ExitKind.panicked "index out of range"
    ∧ (startsOf (run c9Oracle).1).length = 9
    ∧ ((run c9Oracle).1.filter isSubmitEv).length = 0 := by
  have h := oversize_count_panics c9Oracle rfl (by decide)
    (fun hc => Bool.noConfusion hc)
  exact ⟨rfl, h.1, h.2.1, h.2.2⟩
